import Mathlib

/-!
Shallow embedding of the Deadlock item-trainer processing pipeline
(src/src/utils/itemProcessing.ts and the loadItems assembly in src/src/App.tsx),
together with proofs settling the frozen claims about it.

JavaScript conventions used throughout the embedding:
* optional / possibly-undefined fields become Option;
* string truthiness is tested as being nonempty, Option-Bool truthiness as
  being literally some true;
* the value of a raw property (string | number in TS) becomes the JSVal sum.
-/

/-- Modelled value of a TS string | number union (raw property values). -/
inductive JSVal where
  | vstr (s : String)
  | vnum (n : Int)
deriving DecidableEq, Repr

/-- String conversion as performed by template literals and String(x). -/
def jsvToString : JSVal → String
  | .vstr s => s
  | .vnum n => toString n

/-- Truthiness of an optional string: present and nonempty. -/
def optTruthy (o : Option String) : Bool :=
  o.getD "" != ""

/-- The x || y idiom on JS strings: x if truthy, else y. -/
def jsOr (a b : String) : String :=
  if a != "" then a else b

/-- Prefix test on character lists, mirroring String.prototype.startsWith. -/
def leadMatches : List Char → List Char → Bool
  | [], _ => true
  | _ :: _, [] => false
  | a :: as, b :: bs => a == b && leadMatches as bs

/-- Substring containment on character lists. -/
def charsContain (pat : List Char) : List Char → Bool
  | [] => leadMatches pat []
  | c :: rest => leadMatches pat (c :: rest) || charsContain pat rest

/-- String.prototype.includes. -/
def strIncludes (s pat : String) : Bool :=
  charsContain pat.toList s.toList

/-- Lower-casing by characters (the ASCII range the source data uses). -/
def jsToLower (s : String) : String :=
  String.mk (s.data.map Char.toLower)

/-- Whitespace trimming on both ends, by characters. -/
def jsTrim (s : String) : String :=
  String.mk (((s.data.dropWhile Char.isWhitespace).reverse.dropWhile
    Char.isWhitespace).reverse)

/-- String.prototype.startsWith. -/
def jsStartsWith (s pre : String) : Bool :=
  leadMatches pre.data s.data

/-- String.prototype.endsWith. -/
def jsEndsWith (s post : String) : Bool :=
  leadMatches post.data.reverse s.data.reverse

/-- Drop the last n characters (String.prototype.slice with a negative end). -/
def jsDropRight (s : String) (n : Nat) : String :=
  String.mk (s.data.take (s.data.length - n))

/-- Splitting worker on character lists; the fuel is one more than the input
length, which one consumed character per step makes sufficient. -/
def splitChars (sep : List Char) : Nat → List Char → List Char → List (List Char)
  | 0, l, acc => [acc ++ l]
  | _ + 1, [], acc => [acc]
  | fuel + 1, c :: rest, acc =>
    if leadMatches sep (c :: rest) then
      acc :: splitChars sep fuel (rest.drop (sep.length - 1)) []
    else
      splitChars sep fuel rest (acc ++ [c])

/-- String.prototype.split with a nonempty plain-string separator. -/
def jsSplit (s sep : String) : List String :=
  (splitChars sep.data (s.data.length + 1) s.data []).map String.mk

/-- Array.prototype.join. -/
def joinSep (sep : String) : List String → String
  | [] => ""
  | [x] => x
  | x :: y :: rest => x ++ sep ++ joinSep sep (y :: rest)

/-- String.prototype.replace with a plain-string pattern: first occurrence only. -/
def replaceFirst (s pat rep : String) : String :=
  match jsSplit s pat with
  | [] => s
  | [x] => x
  | x :: rest => x ++ rep ++ joinSep pat rest

/-- Digit-string parsing used by the Number coercion model. -/
def digitsToNat (l : List Char) : Option Nat :=
  if l ≠ [] ∧ l.all Char.isDigit then
    some (l.foldl (fun n c => n * 10 + (c.toNat - 48)) 0)
  else none

/-- Integer parsing used by the Number coercion model. -/
def jsStrToInt (s : String) : Option Int :=
  match s.data with
  | '-' :: rest => (digitsToNat rest).map (fun n => -(n : Int))
  | l => (digitsToNat l).map (fun n => (n : Int))

/-! ## Data model (src/src/types.ts) -/

/-- Semantic stat-section tag (type StatSection). -/
inductive StatSection where
  | innate
  | passive
  | active
deriving DecidableEq, Repr

/-- The scale_function sub-object of a raw property. -/
structure ScaleFunction where
  specific_stat_scale_type : Option String := none
  scaling_stats : Option (List String) := none
  stat_scale : Option Int := none
  scale_value : Option Int := none
  bonus_scale : Option Int := none
deriving DecidableEq, Repr

/-- Raw API property (interface RawItemProperty); the TS fields prefix and
postfix are called prefx and postfx here. -/
structure RawItemProperty where
  value : Option JSVal := none
  label : Option String := none
  prefx : Option String := none
  postfx : Option String := none
  icon : Option String := none
  css_class : Option String := none
  usage_flags : Option (List String) := none
  conditional : Option String := none
  scale_function : Option ScaleFunction := none
deriving DecidableEq, Repr

/-- One attribute of a tooltip section. -/
structure SectionAttribute where
  loc_string : Option String := none
  properties : Option (List String) := none
  elevated_properties : Option (List String) := none
  important_properties : Option (List String) := none
deriving DecidableEq, Repr

/-- Raw tooltip section (interface RawTooltipSection); an absent section_type
is modelled as the empty string, which has the same truthiness. -/
structure RawTooltipSection where
  section_type : String := ""
  section_attributes : Option (List SectionAttribute) := none
deriving DecidableEq, Repr

/-- One property_upgrades entry of an upgrade tier. -/
structure PropUpgrade where
  name : String := ""
  bonus : String := ""
deriving DecidableEq, Repr

/-- One upgrades entry of a raw item. -/
structure Upgrade where
  property_upgrades : Option (List PropUpgrade) := none
deriving DecidableEq, Repr

/-- The description object of a raw item. -/
structure DescriptionObj where
  desc : Option String := none
  passive_desc : Option String := none
  passive : Option String := none
  active_desc : Option String := none
  active : Option String := none
  english : Option String := none
  tooltip : Option String := none
deriving DecidableEq, Repr

/-- Raw API item (interface RawItem); the properties record is modelled as a
lookup function, absent records as the everywhere-none function. -/
structure RawItem where
  id : Int := 0
  class_name : String := ""
  name : Option String := none
  shop_image : Option String := none
  shop_image_webp : Option String := none
  item_slot_type : Option String := none
  item_tier : Option Int := none
  cost : Option Int := none
  shopable : Option Bool := none
  disabled : Option Bool := none
  is_active_item : Option Bool := none
  imbue : Option Bool := none
  activation : Option String := none
  description : Option DescriptionObj := none
  properties : String → Option RawItemProperty := fun _ => none
  tooltip_sections : Option (List RawTooltipSection) := none
  upgrades : Option (List Upgrade) := none
  component_items : Option (List String) := none

/-- Display-ready stat record (interface StatInfo); optional flags that the
code sets as b || undefined are Option Bool holding some true or none. -/
structure StatInfo where
  label : String
  value : String
  icon : Option String := none
  cssClass : Option String := none
  scalesWith : Option String := none
  scaleMultiplier : Option Int := none
  sectionTag : StatSection
  isConditional : Option Bool := none
  isImportant : Option Bool := none
  hasBuiltInCondition : Option Bool := none
deriving DecidableEq, Repr

/-- Interleaved content block (type ContentBlock). -/
inductive ContentBlock where
  | description (text : String)
  | stats (stats : List StatInfo)
deriving DecidableEq, Repr

/-- Component cross-reference entry (interface ComponentItem). -/
structure ComponentItem where
  id : Int
  name : String
deriving DecidableEq, Repr

/-- Assembled item (interface ProcessedItem); the fields the pipeline
produces in pass 1, with upgradesTo filled by pass 2. -/
structure ProcessedItem where
  id : Int
  name : String
  displayName : String
  image : String
  fallbackImage : Option String
  type : String
  tier : Int
  cost : Int
  stats : List StatInfo
  passiveDescription : Option String
  activeDescription : Option String
  activeBlocks : Option (List ContentBlock)
  passiveBlocks : Option (List ContentBlock)
  hasPassiveSection : Bool
  isActive : Bool
  isImbue : Bool
  cooldown : Option String
  passiveCooldown : Option String
  componentItems : List ComponentItem
  upgradesTo : List ComponentItem
deriving DecidableEq, Repr

/-! ## itemProcessing.ts -/

/-- formatName: strip a leading upgrade_, split on underscores, title-case. -/
def capitalizeWord (w : String) : String :=
  match w.toList with
  | [] => ""
  | c :: rest => String.mk (c.toUpper :: rest)

/-- formatName from itemProcessing.ts. -/
def formatName (className : String) : String :=
  let stripped := if jsStartsWith className "upgrade_"
    then String.mk (className.data.drop 8) else className
  joinSep " " ((jsSplit stripped "_").map capitalizeWord)

/-- determineType from itemProcessing.ts. -/
def determineType (item : RawItem) : String :=
  let itemSlotType := jsToLower (item.item_slot_type.getD "")
  if strIncludes itemSlotType "weapon" then "weapon"
  else if strIncludes itemSlotType "armor" || strIncludes itemSlotType "vitality" then "vitality"
  else if strIncludes itemSlotType "tech" || strIncludes itemSlotType "spirit" then "spirit"
  else "weapon"

/-- Truthiness of an optional JS value (used by the || chains). -/
def jsvTruthy : Option JSVal → Bool
  | none => false
  | some (.vstr s) => s != ""
  | some (.vnum n) => n != 0

/-- The x || y idiom on optional JS values. -/
def jsvOr (a b : Option JSVal) : Option JSVal :=
  if jsvTruthy a then a else b

/-- Number(x) coercion restricted to the modelled value universe; none is NaN. -/
def jsvToNumber : JSVal → Option Int
  | .vnum n => some n
  | .vstr s => if jsTrim s = "" then some 0 else jsStrToInt (jsTrim s)

/-- extractCost from itemProcessing.ts. -/
def extractCost (item : RawItem) : Int :=
  let cost := jsvOr (item.cost.map JSVal.vnum)
    (jsvOr ((item.properties "AbilityResourceCost").bind (fun p => p.value))
      (jsvOr ((item.properties "m_nAbilityPointsCost").bind (fun p => p.value))
        (jsvOr ((item.properties "Cost").bind (fun p => p.value))
          (some (JSVal.vnum 0)))))
  match cost with
  | none => 0
  | some v => (jsvToNumber v).getD 0

/-- determineTier from itemProcessing.ts. -/
def determineTier (item : RawItem) : Int :=
  if item.item_tier.getD 0 != 0 then item.item_tier.getD 0
  else
    let className := jsToLower item.class_name
    if strIncludes className "t5_" || strIncludes className "tier5" then 5
    else if strIncludes className "t4_" || strIncludes className "tier4" then 4
    else if strIncludes className "t3_" || strIncludes className "tier3" then 3
    else if strIncludes className "t2_" || strIncludes className "tier2" then 2
    else if strIncludes className "t1_" || strIncludes className "tier1" then 1
    else
      let cost := extractCost item
      if cost ≥ 10000 then 5
      else if cost ≥ 6000 then 4
      else if cost ≥ 3000 then 3
      else if cost ≥ 1250 then 2
      else 1

/-- SCALE_TYPE_MAP from constants.ts. -/
def scaleTypeMap : String → Option String := fun s =>
  if s = "ETechDuration" then some "Spirit"
  else if s = "ETechRange" then some "Spirit"
  else if s = "ETechPower" then some "Spirit"
  else if s = "EWeaponDamage" then some "Weapon"
  else if s = "EBulletDamage" then some "Weapon"
  else if s = "EBaseAttackDamage" then some "Weapon"
  else if s = "EMaxHealth" then some "Max Health"
  else if s = "EHealthRegen" then some "Health Regen"
  else if s = "EBulletResist" then some "Bullet Resist"
  else if s = "ESpiritResist" then some "Spirit Resist"
  else if s = "EMoveSpeed" then some "Move Speed"
  else if s = "EItemCooldown" then some "Item Cooldown"
  else if s = "EAbilityCooldown" then some "Ability Cooldown"
  else if s = "EChannelDuration" then some "Channel Duration"
  else none

/-- getScaleStatName from itemProcessing.ts. -/
def getScaleStatName (scaleType : String) : Option String :=
  scaleTypeMap scaleType

/-- The zero-or-empty test applied to a raw value in extractStat:
undefined, null, the string 0, the number 0 or the empty string. -/
def jsvZeroEmpty : Option JSVal → Bool
  | none => true
  | some (.vstr s) => s == "0" || s == ""
  | some (.vnum n) => n == 0

/-- Sign-prefix handling block of extractStat. -/
def applySignPrefix (prefx : Option String) (displayValue : String) : String :=
  if optTruthy prefx then
    let isNegative := jsStartsWith displayValue "-"
    let signReplacement := if isNegative then "" else "+"
    replaceFirst (prefx.getD "") "\x7bs:sign\x7d" signReplacement ++ displayValue
  else displayValue

/-- Unit-postfix handling block of extractStat. -/
def applyPostfixUnit (postfx : Option String) (displayValue : String) : String :=
  if optTruthy postfx then
    let p := postfx.getD ""
    let trimmedPostfix := jsTrim p
    let trimmedValue := jsTrim displayValue
    if jsEndsWith trimmedValue trimmedPostfix then displayValue
    else
      let baseUnit := jsTrim ((jsSplit trimmedPostfix "/").headD "")
      if baseUnit != "" && jsEndsWith trimmedValue baseUnit then
        jsTrim (jsDropRight trimmedValue baseUnit.length) ++ " " ++ trimmedPostfix
      else displayValue ++ p
  else displayValue

/-- First recognized name of an ordered list of candidate scaling stats. -/
def firstScaleName : List String → Option String
  | [] => none
  | stat :: rest =>
    match getScaleStatName stat with
    | some n => some n
    | none => firstScaleName rest

/-- Scaling-information block of extractStat: scalesWith and scaleMultiplier. -/
def extractScaling (sf? : Option ScaleFunction) : Option String × Option Int :=
  match sf? with
  | none => (none, none)
  | some sf =>
    match sf.stat_scale.or (sf.scale_value.or sf.bonus_scale) with
    | none => (none, none)
    | some m =>
      if m > 0 then
        let scalesWith :=
          if optTruthy sf.specific_stat_scale_type then
            getScaleStatName (sf.specific_stat_scale_type.getD "")
          else
            match sf.scaling_stats with
            | some stats => firstScaleName stats
            | none => none
        (scalesWith, some m)
      else (none, none)

/-- extractStat from itemProcessing.ts. -/
def extractStat (propName : String) (prop : Option RawItemProperty)
    (sectionType : StatSection) (upgradesMap : String → Option String)
    (isConditional : Bool) (isImportant : Bool) : Option StatInfo :=
  match prop with
  | none => none
  | some p =>
    let bonusValue := upgradesMap propName
    let value := if jsvZeroEmpty p.value && optTruthy bonusValue
      then bonusValue.map JSVal.vstr else p.value
    if jsvZeroEmpty value then none
    else if !optTruthy p.label then none
    else
      let displayValue := jsvToString (value.getD (JSVal.vstr ""))
      let displayValue := applySignPrefix p.prefx displayValue
      let displayValue := applyPostfixUnit p.postfx displayValue
      let scaling := extractScaling p.scale_function
      let hasConditionalFlag := (p.usage_flags.getD []).contains "ConditionallyApplied"
      let conditionAlreadyInLabel := optTruthy p.conditional
      let isImportantEnemyDebuff := isImportant && p.css_class == some "slow"
      let isPassiveSection := sectionType == StatSection.passive
      let shouldMarkConditional := isConditional ||
        (hasConditionalFlag && !conditionAlreadyInLabel &&
          (isImportantEnemyDebuff || isPassiveSection))
      some
        { label := p.label.getD ""
          value := displayValue
          icon := p.icon
          cssClass := p.css_class
          scalesWith := scaling.1
          scaleMultiplier := scaling.2
          sectionTag := sectionType
          isConditional := if shouldMarkConditional then some true else none
          isImportant := if isImportant then some true else none
          hasBuiltInCondition := if conditionAlreadyInLabel then some true else none }

/-- The upgrades map built by extractStats and extractContentBlocks: property
name to bonus string, later entries overwriting earlier ones. -/
def buildUpgradesMap (upgrades : List Upgrade) : String → Option String :=
  (upgrades.flatMap (fun u => u.property_upgrades.getD [])).foldl
    (fun m pu =>
      if pu.name != "" && pu.bonus != "" then
        fun k => if k = pu.name then some pu.bonus else m k
      else m)
    (fun _ => none)

/-- Stats produced from one attribute: its elevated, important and regular
property buckets in order (the three inner loops shared by extractStats and
extractContentBlocks). -/
def attrStatsOf (properties : String → Option RawItemProperty)
    (statSection : StatSection) (upgradesMap : String → Option String)
    (isConditional : Bool) (attr : SectionAttribute) : List StatInfo :=
  ((attr.elevated_properties.getD []).filterMap
      (fun pn => extractStat pn (properties pn) statSection upgradesMap isConditional false))
  ++ ((attr.important_properties.getD []).filterMap
      (fun pn => extractStat pn (properties pn) statSection upgradesMap isConditional true))
  ++ ((attr.properties.getD []).filterMap
      (fun pn => extractStat pn (properties pn) statSection upgradesMap isConditional false))

/-- The section tag computed at the top of the extractStats loop: statSection
starts as innate, becomes active for active sections and passive for
passive, conditional or typeless sections; any other type keeps innate. -/
def statsSectionTag (sectionType : String) : StatSection :=
  if sectionType = "active" then .active
  else if sectionType = "passive" || sectionType = "conditional" || sectionType = "" then
    (if sectionType != "innate" then .passive else .innate)
  else .innate

/-- extractStats from itemProcessing.ts. -/
def extractStats (properties : String → Option RawItemProperty)
    (tooltipSections : Option (List RawTooltipSection))
    (upgrades : Option (List Upgrade)) : List StatInfo :=
  let upgradesMap := buildUpgradesMap (upgrades.getD [])
  (tooltipSections.getD []).flatMap (fun sec =>
    let sectionType := sec.section_type
    let isConditional := sectionType == "conditional"
    let statSection := statsSectionTag sectionType
    (sec.section_attributes.getD []).flatMap
      (attrStatsOf properties statSection upgradesMap isConditional))

/-- Richness test of extractDescriptions: an img tag or an
inline-attribute span, case-insensitively. -/
def isRichDesc (s : String) : Bool :=
  strIncludes (jsToLower s) "<img"
    || strIncludes (jsToLower s) "<span class=\"inline-attribute"

/-- The main description field (descObj.desc with empty default). -/
def mainDescOf (item : RawItem) : String :=
  (item.description.getD {}).desc.getD ""

/-- The dedicated passive description field: passive_desc, else passive. -/
def passiveDescOf (item : RawItem) : String :=
  jsOr ((item.description.getD {}).passive_desc.getD "")
    ((item.description.getD {}).passive.getD "")

/-- The dedicated active description field: active_desc, else active. -/
def activeDescOf (item : RawItem) : String :=
  jsOr ((item.description.getD {}).active_desc.getD "")
    ((item.description.getD {}).active.getD "")

/-- The loc_string collection loop of extractDescriptions: the first list is
the active bucket, the second the passive bucket. -/
def locDescriptions (ts : List RawTooltipSection) : List String × List String :=
  ts.foldl (fun acc sec =>
    (sec.section_attributes.getD []).foldl (fun acc2 attr =>
      if optTruthy attr.loc_string then
        if sec.section_type == "active" then
          (acc2.1 ++ [attr.loc_string.getD ""], acc2.2)
        else if sec.section_type == "passive" || sec.section_type == "conditional"
            || sec.section_type == "" then
          (acc2.1, acc2.2 ++ [attr.loc_string.getD ""])
        else acc2
      else acc2) acc) ([], [])

/-- Localized active fallback: active-bucket loc_strings joined with br br. -/
def locActiveDescOf (item : RawItem) : String :=
  joinSep "<br><br>" (locDescriptions (item.tooltip_sections.getD [])).1

/-- Localized passive fallback: passive-bucket loc_strings joined with br br. -/
def locPassiveDescOf (item : RawItem) : String :=
  joinSep "<br><br>" (locDescriptions (item.tooltip_sections.getD [])).2

/-- hasActiveAbility local of extractDescriptions: explicitly flagged active,
or a nonempty activation type that is neither none nor passive. -/
def hasActiveAbilityOf (item : RawItem) : Bool :=
  let activationType := jsToLower (item.activation.getD "")
  item.is_active_item == some true ||
    (activationType != "" && activationType != "none" && activationType != ""
      && activationType != "passive")

/-- hasOnlyActiveSections local of extractDescriptions. -/
def hasOnlyActiveSectionsOf (item : RawItem) : Bool :=
  let tooltipSections := item.tooltip_sections.getD []
  tooltipSections.length != 0 && tooltipSections.all (fun s => s.section_type == "active")

/-- The passive-description priority chain of extractDescriptions, before the
final safety net: rich dedicated passive, else (guarded) rich main, else
plain dedicated passive, else (guarded) plain main, else localized passive. -/
def passiveDescChain (item : RawItem) : String :=
  if isRichDesc (passiveDescOf item) then passiveDescOf item
  else if !hasActiveAbilityOf item && !hasOnlyActiveSectionsOf item
      && isRichDesc (mainDescOf item) then mainDescOf item
  else if passiveDescOf item != "" then passiveDescOf item
  else if !hasActiveAbilityOf item && !hasOnlyActiveSectionsOf item
      && mainDescOf item != "" then mainDescOf item
  else if locPassiveDescOf item != "" then locPassiveDescOf item
  else ""

/-- The active-description priority chain of extractDescriptions, before the
final safety net. -/
def activeDescChain (item : RawItem) : String :=
  if isRichDesc (activeDescOf item) then activeDescOf item
  else if (hasActiveAbilityOf item || hasOnlyActiveSectionsOf item)
      && isRichDesc (mainDescOf item) then mainDescOf item
  else if activeDescOf item != "" then activeDescOf item
  else if (hasActiveAbilityOf item || hasOnlyActiveSectionsOf item)
      && mainDescOf item != "" then mainDescOf item
  else if locActiveDescOf item != "" then locActiveDescOf item
  else ""

/-- The anyDesc candidate of the final safety net of extractDescriptions. -/
def anyDescOf (item : RawItem) : String :=
  jsOr (mainDescOf item) (jsOr (passiveDescOf item) (jsOr (activeDescOf item)
    (jsOr (locPassiveDescOf item) (jsOr (locActiveDescOf item)
      (jsOr ((item.description.getD {}).english.getD "")
        ((item.description.getD {}).tooltip.getD ""))))))

/-- The pair returned by extractDescriptions. -/
structure Descriptions where
  passiveDescription : String
  activeDescription : String
deriving DecidableEq, Repr

/-- extractDescriptions from itemProcessing.ts: the two priority chains plus
the final safety net that routes any remaining description text to the
active side for active-capable items and to the passive side otherwise. -/
def extractDescriptions (item : RawItem) : Descriptions :=
  let finalPassiveDesc := passiveDescChain item
  let finalActiveDesc := activeDescChain item
  if finalPassiveDesc == "" && finalActiveDesc == "" then
    let anyDesc := anyDescOf item
    if anyDesc != "" then
      if hasActiveAbilityOf item then ⟨finalPassiveDesc, anyDesc⟩
      else ⟨anyDesc, finalActiveDesc⟩
    else ⟨finalPassiveDesc, finalActiveDesc⟩
  else ⟨finalPassiveDesc, finalActiveDesc⟩

/-- One attribute step of the extractContentBlocks inner loop: push a
description block for a truthy loc_string, then push one stats block when
any stats were extracted. -/
def attrBlocksStep (properties : String → Option RawItemProperty)
    (upgradesMap : String → Option String) (statSection : StatSection)
    (isConditional : Bool) (blocks : List ContentBlock) (attr : SectionAttribute) :
    List ContentBlock :=
  let blocks1 := if optTruthy attr.loc_string then
    blocks ++ [ContentBlock.description (attr.loc_string.getD "")] else blocks
  let attrStats := attrStatsOf properties statSection upgradesMap isConditional attr
  if attrStats.length > 0 then blocks1 ++ [ContentBlock.stats attrStats] else blocks1

/-- One tooltip-section step of the extractContentBlocks loop: route the
section to the active or passive bucket (or skip innate sections) and append
its attribute blocks there. -/
def sectionStep (properties : String → Option RawItemProperty)
    (upgradesMap : String → Option String)
    (acc : List ContentBlock × List ContentBlock) (sec : RawTooltipSection) :
    List ContentBlock × List ContentBlock :=
  let sectionType := sec.section_type
  let isConditional := sectionType == "conditional"
  if sectionType = "active" then
    ((sec.section_attributes.getD []).foldl
      (attrBlocksStep properties upgradesMap .active isConditional) acc.1, acc.2)
  else if sectionType = "passive" || sectionType = "conditional" || sectionType = "" then
    (acc.1, (sec.section_attributes.getD []).foldl
      (attrBlocksStep properties upgradesMap
        (if sectionType = "innate" then .innate else .passive) isConditional) acc.2)
  else if sectionType = "innate" then acc
  else
    (acc.1, (sec.section_attributes.getD []).foldl
      (attrBlocksStep properties upgradesMap .passive isConditional) acc.2)

/-- extractContentBlocks from itemProcessing.ts; the pair is
(activeBlocks, passiveBlocks). -/
def extractContentBlocks (properties : String → Option RawItemProperty)
    (tooltipSections : Option (List RawTooltipSection))
    (upgrades : Option (List Upgrade)) : List ContentBlock × List ContentBlock :=
  let upgradesMap := buildUpgradesMap (upgrades.getD [])
  (tooltipSections.getD []).foldl (sectionStep properties upgradesMap) ([], [])

/-! ## App.tsx assembly (loadItems) -/

/-- The hasInnateSection local of the pass-1 map body in App.tsx; note that
the source tests for innate, passive or conditional section types. -/
def hasInnateSection (ts : List RawTooltipSection) : Bool :=
  ts.any (fun s => s.section_type == "innate" || s.section_type == "passive"
    || s.section_type == "conditional")

/-- The hasActiveSection local of the pass-1 map body in App.tsx. -/
def hasActiveSectionB (ts : List RawTooltipSection) : Bool :=
  ts.any (fun s => s.section_type == "active")

/-- The passiveStats local of the pass-1 map body: aggregated stats filtered
to the passive section tag. -/
def passiveStatsOf (item : RawItem) : List StatInfo :=
  (extractStats item.properties (some (item.tooltip_sections.getD []))
    (some (item.upgrades.getD []))).filter (fun s => s.sectionTag == StatSection.passive)

/-- The hasPassiveSection local of the pass-1 map body in App.tsx. -/
def hasPassiveSectionOf (item : RawItem) : Bool :=
  let tooltipSections := item.tooltip_sections.getD []
  hasInnateSection tooltipSections ||
    (extractDescriptions item).passiveDescription != "" ||
    ((passiveStatsOf item).length > 0 &&
      (hasActiveSectionB tooltipSections ||
        (extractDescriptions item).activeDescription != ""))

/-- The isActive local of the pass-1 map body in App.tsx. -/
def isActiveOf (item : RawItem) : Bool :=
  let activationType := jsToLower (item.activation.getD "")
  item.is_active_item == some true ||
    activationType == "instant_cast" || activationType == "pressed" ||
    activationType == "press" || activationType == "toggle" ||
    activationType == "channeled"

/-- The isImbue local of the pass-1 map body in App.tsx. -/
def isImbueOf (item : RawItem) (passiveDescription activeDescription : String) : Bool :=
  let fullDescription := passiveDescription ++ " " ++ activeDescription
  item.imbue == some true || strIncludes (jsToLower fullDescription) "imbued"
    || strIncludes (jsToLower fullDescription) "imbue"

/-- The cooldown local of the pass-1 map body in App.tsx. -/
def cooldownOf (item : RawItem) (isActive : Bool) : Option String :=
  if isActive then
    match item.properties "AbilityCooldown" with
    | some cd =>
      match cd.value with
      | some v =>
        if jsvTruthy (some v) && v != JSVal.vstr "0" && v != JSVal.vnum 0 then
          some (jsvToString v ++ "s")
        else none
      | none => none
    | none => none
  else none

/-- Lookup modelling allItemsByClassName.get: the map is filled by a forEach
with set, so the last item bearing a class name wins. -/
def findLastByClass : List RawItem → String → Option RawItem
  | [], _ => none
  | r :: l, cn =>
    match findLastByClass l cn with
    | some x => some x
    | none => if r.class_name = cn then some r else none

/-- The componentItems local of the pass-1 map body: resolve each referenced
class name against the full item list, degrading to an id-0 placeholder with
the normalized reference name when unresolved. -/
def componentItemsOf (allItems : List RawItem) (item : RawItem) : List ComponentItem :=
  (item.component_items.getD []).map (fun compClassName =>
    match findLastByClass allItems compClassName with
    | some compItem => ⟨compItem.id, jsOr (compItem.name.getD "") (formatName compItem.class_name)⟩
    | none => ⟨0, formatName compClassName⟩)

/-- The pass-1 map body of loadItems in App.tsx: one ProcessedItem per shop
item, with upgradesTo still empty. -/
def processItem (allItems : List RawItem) (item : RawItem) : ProcessedItem :=
  let displayName := jsOr (item.name.getD "") (formatName item.class_name)
  let apiImage := jsOr (item.shop_image_webp.getD "") (item.shop_image.getD "")
  let descs := extractDescriptions item
  let tooltipSections := item.tooltip_sections.getD []
  let isActive := isActiveOf item
  let itemUpgrades := item.upgrades.getD []
  let passiveStats := passiveStatsOf item
  let blocks := extractContentBlocks item.properties (some tooltipSections) (some itemUpgrades)
  { id := item.id
    name := item.class_name
    displayName := displayName
    image := apiImage
    fallbackImage := none
    type := determineType item
    tier := if item.item_tier.getD 0 != 0 then item.item_tier.getD 0 else determineTier item
    cost := if item.cost.getD 0 != 0 then item.cost.getD 0 else extractCost item
    stats := extractStats item.properties (some tooltipSections) (some itemUpgrades)
    passiveDescription :=
      if descs.passiveDescription != "" then some descs.passiveDescription else none
    activeDescription :=
      if descs.activeDescription != "" then some descs.activeDescription else none
    activeBlocks := if blocks.1.length > 0 then some blocks.1 else none
    passiveBlocks := if blocks.2.length > 0 then some blocks.2 else none
    hasPassiveSection := hasPassiveSectionOf item
    isActive := isActive
    isImbue := isImbueOf item descs.passiveDescription descs.activeDescription
    cooldown := cooldownOf item isActive
    passiveCooldown := (passiveStats.find? (fun s => s.label == "Cooldown")).map
      (fun s => s.value)
    componentItems := componentItemsOf allItems item
    upgradesTo := [] }

/-- The shop filter applied to the fetched item array in loadItems. -/
def shopEligible (item : RawItem) : Bool :=
  (item.shopable == some true) && !(item.disabled == some true) &&
    (item.shop_image.getD "" != "" || item.shop_image_webp.getD "" != "")

/-- Index lookup modelling processedById.get: the map is filled by a forEach
with set over the processed array, so the last index bearing an id wins. -/
def findLastIdx : List ProcessedItem → Int → Option Nat
  | [], _ => none
  | p :: l, cid =>
    match findLastIdx l cid with
    | some j => some (j + 1)
    | none => if p.id = cid then some 0 else none

/-- In-place update of one list position. -/
def listModify : List α → Nat → (α → α) → List α
  | [], _, _ => []
  | a :: l, 0, f => f a :: l
  | a :: l, n + 1, f => a :: listModify l n f

/-- One push of the pass-2 loop: append a reverse-reference entry onto the
upgradesTo of the item the component id resolves to, if any.  The source
looks the id up in processedById, which always agrees with a lookup over the
current array because pass 2 never changes any id. -/
def applyOp (acc : List ProcessedItem) (op : Int × ComponentItem) : List ProcessedItem :=
  match findLastIdx acc op.1 with
  | some j => listModify acc j (fun p => { p with upgradesTo := p.upgradesTo ++ [op.2] })
  | none => acc

/-- The ordered sequence of pushes performed by pass 2: for every processed
item in order, for every component entry in order, target the component id
with an entry carrying this item's id and display name. -/
def upgradeOps (processed : List ProcessedItem) : List (Int × ComponentItem) :=
  processed.flatMap (fun a => a.componentItems.map (fun c => (c.id, ⟨a.id, a.displayName⟩)))

/-- Pass 2 of loadItems: apply every push in order. -/
def secondPass (processed : List ProcessedItem) : List ProcessedItem :=
  (upgradeOps processed).foldl applyOp processed

/-- The whole load pipeline on a fetched item array: shop filter, pass 1,
pass 2. -/
def loadItemsModel (allItems : List RawItem) : List ProcessedItem :=
  secondPass ((allItems.filter shopEligible).map (processItem allItems))

/-! ## Specification-level definitions used to state the claims -/

/-- Per-attribute block shape asserted by the content-block claim: an
optional description block (for a truthy loc_string) followed by at most one
stats block holding all extracted stats of the attribute. -/
def attrBlocksSpec (properties : String → Option RawItemProperty)
    (upgradesMap : String → Option String) (statSection : StatSection)
    (isConditional : Bool) (attr : SectionAttribute) : List ContentBlock :=
  (if optTruthy attr.loc_string then
    [ContentBlock.description (attr.loc_string.getD "")] else []) ++
  (let attrStats := attrStatsOf properties statSection upgradesMap isConditional attr
   if attrStats.length > 0 then [ContentBlock.stats attrStats] else [])

/-- Per-section contribution to the (active, passive) block buckets. -/
def sectionBlocksSpec (properties : String → Option RawItemProperty)
    (upgradesMap : String → Option String) (sec : RawTooltipSection) :
    List ContentBlock × List ContentBlock :=
  let isConditional := sec.section_type == "conditional"
  if sec.section_type = "active" then
    ((sec.section_attributes.getD []).flatMap
      (attrBlocksSpec properties upgradesMap .active isConditional), [])
  else if sec.section_type = "passive" ∨ sec.section_type = "conditional"
      ∨ sec.section_type = "" then
    ([], (sec.section_attributes.getD []).flatMap
      (attrBlocksSpec properties upgradesMap
        (if sec.section_type = "innate" then .innate else .passive) isConditional))
  else if sec.section_type = "innate" then ([], [])
  else
    ([], (sec.section_attributes.getD []).flatMap
      (attrBlocksSpec properties upgradesMap .passive isConditional))

/-- The hasPassiveSection formula asserted by the original claim C6, which
restricts the first disjunct to literally innate-typed sections. -/
def claimHasPassive (item : RawItem) : Bool :=
  (item.tooltip_sections.getD []).any (fun s => s.section_type == "innate") ||
    (extractDescriptions item).passiveDescription != "" ||
    ((passiveStatsOf item).length > 0 &&
      (hasActiveSectionB (item.tooltip_sections.getD []) ||
        (extractDescriptions item).activeDescription != ""))

/-- The entries that pass 2 contributes to the item at one index: pushes
whose target id resolves to that index. -/
def opsFor (base : List ProcessedItem) (j : Nat)
    (ops : List (Int × ComponentItem)) : List ComponentItem :=
  ops.filterMap (fun op => if findLastIdx base op.1 = some j then some op.2 else none)

/-! ## Concrete inputs used by witnesses and counterexamples -/

/-- Slot type containing both weapon and armor. -/
def itemWA : RawItem := { item_slot_type := some "weapon_armor" }

/-- Item whose only description text is the english field. -/
def itemE : RawItem := { description := some { english := some "foo" } }

/-- Item with a rich dedicated passive description and a main description. -/
def itemR : RawItem :=
  { description := some { passive_desc := some "<img x>", desc := some "main" } }

/-- Item with one empty passive-typed tooltip section and nothing else. -/
def itemP : RawItem := { tooltip_sections := some [{ section_type := "passive" }] }

/-- Conditionally applied slow-debuff property without a conditional text. -/
def prop2 : RawItemProperty :=
  { value := some (.vstr "30"), label := some "Slow", css_class := some "slow",
    usage_flags := some ["ConditionallyApplied"] }

/-- Property record holding prop2 under the name SlowPct. -/
def props2 : String → Option RawItemProperty :=
  fun n => if n = "SlowPct" then some prop2 else none

/-- Passive section referencing SlowPct from the regular property bucket. -/
def sec2 : RawTooltipSection :=
  { section_type := "passive", section_attributes := some [{ properties := some ["SlowPct"] }] }

/-- Section of an unrecognized type referencing SlowPct. -/
def secFoo : RawTooltipSection :=
  { section_type := "foo", section_attributes := some [{ properties := some ["SlowPct"] }] }

/-- The stat extracted from prop2 in a passive section as a regular property. -/
def statC2 : StatInfo :=
  { label := "Slow", value := "30", cssClass := some "slow",
    sectionTag := .passive, isConditional := some true }

/-- Important slow-debuff property used by the C1 witness. -/
def pW : RawItemProperty :=
  { value := some (.vstr "2"), label := some "L",
    usage_flags := some ["ConditionallyApplied"], css_class := some "slow" }

/-- The stat extracted from pW in an active section as an important property. -/
def statW : StatInfo :=
  { label := "L", value := "2", cssClass := some "slow", sectionTag := .active,
    isConditional := some true, isImportant := some true }

/-- Property with the zero string as base value (the spec example). -/
def pZ : RawItemProperty := { value := some (.vstr "0"), label := some "Foo" }

/-- Upgrades map granting Foo a bonus of 5 (the spec example). -/
def um5 : String → Option String := fun n => if n = "Foo" then some "5" else none

/-- Property used by the content-block example. -/
def pEx : RawItemProperty := { value := some (.vstr "7"), label := some "P1" }

/-- Property record holding pEx under the name p1. -/
def exProps : String → Option RawItemProperty := fun n => if n = "p1" then some pEx else none

/-- The two-attribute passive section of the content-block example. -/
def exTs : List RawTooltipSection :=
  [{ section_type := "passive",
     section_attributes := some [{ loc_string := some "X", properties := some ["p1"] },
                                 { loc_string := some "Y" }] }]

/-- The stat extracted from pEx in the content-block example. -/
def statEx : StatInfo := { label := "P1", value := "7", sectionTag := .passive }

/-- Shop-eligible raw component item with class name b. -/
def rawB : RawItem :=
  { id := 1, class_name := "b", shopable := some true, shop_image := some "i" }

/-- Non-shop raw item sharing the class name b. -/
def rawC : RawItem := { id := 2, class_name := "b" }

/-- Shop-eligible raw item built from the class name b. -/
def rawA : RawItem :=
  { id := 3, class_name := "a", shopable := some true, shop_image := some "i",
    component_items := some ["b"] }

/-- Item list where the class name b is shadowed by a later non-shop item. -/
def allX : List RawItem := [rawB, rawC, rawA]

/-- Item list where the class name b resolves to the shop item rawB. -/
def allY : List RawItem := [rawB, rawA]

/-- Raw item referencing a class name that resolves to no item at all. -/
def rawD : RawItem := { id := 5, class_name := "d", component_items := some ["zzz"] }

/-! ## Helper lemmas -/

lemma contains_iff_mem (l : List String) (a : String) : l.contains a = true ↔ a ∈ l := by
  simp [List.contains]

lemma shouldMark_iff (p : RawItemProperty) (st : StatSection) (c i : Bool) :
    (c || ((p.usage_flags.getD []).contains "ConditionallyApplied" && !optTruthy p.conditional
      && (i && p.css_class == some "slow" || st == StatSection.passive))) = true ↔
    (c = true ∨ ("ConditionallyApplied" ∈ p.usage_flags.getD [] ∧ p.conditional.getD "" = "" ∧
      ((i = true ∧ p.css_class = some "slow") ∨ st = StatSection.passive))) := by
  simp [optTruthy, List.contains, and_assoc]

lemma extractStat_inv {pn : String} {p : RawItemProperty} {st : StatSection}
    {um : String → Option String} {c i : Bool} {s : StatInfo}
    (h : extractStat pn (some p) st um c i = some s) :
    s.sectionTag = st ∧
    s.isConditional = (if (c || ((p.usage_flags.getD []).contains "ConditionallyApplied"
        && !optTruthy p.conditional
        && (i && p.css_class == some "slow" || st == StatSection.passive))) then some true
      else none) := by
  simp only [extractStat] at h
  split at h
  · split at h
    · exact absurd h (by simp)
    · split at h
      · exact absurd h (by simp)
      · cases h
        exact ⟨rfl, rfl⟩
  · split at h
    · exact absurd h (by simp)
    · split at h
      · exact absurd h (by simp)
      · cases h
        exact ⟨rfl, rfl⟩

/-! ## Claims -/

/-- Claim C10, counterexample: the slot type weapon_armor contains armor, yet
determineType returns weapon, not vitality, because the source checks the
weapon substring first. -/
theorem c10_counterexample :
    strIncludes (jsToLower (itemWA.item_slot_type.getD "")) "armor" = true ∧
    determineType itemWA ≠ "vitality" := ⟨by decide, by decide⟩

/-- Claim C10 as amended: determineType always returns one of weapon,
vitality, spirit, and follows the priority chain that checks weapon first,
then armor or vitality, then tech or spirit, defaulting to weapon. -/
theorem c10_theorem (item : RawItem) :
    (determineType item =
      (if strIncludes (jsToLower (item.item_slot_type.getD "")) "weapon" then "weapon"
       else if strIncludes (jsToLower (item.item_slot_type.getD "")) "armor"
           || strIncludes (jsToLower (item.item_slot_type.getD "")) "vitality" then "vitality"
       else if strIncludes (jsToLower (item.item_slot_type.getD "")) "tech"
           || strIncludes (jsToLower (item.item_slot_type.getD "")) "spirit" then "spirit"
       else "weapon")) ∧
    (determineType item = "weapon" ∨ determineType item = "vitality"
      ∨ determineType item = "spirit") := by
  constructor
  · rfl
  · simp only [determineType]
    split
    · exact Or.inl rfl
    · split
      · exact Or.inr (Or.inl rfl)
      · split
        · exact Or.inr (Or.inr rfl)
        · exact Or.inl rfl

/-- Claim C2, counterexample: a ConditionallyApplied slow property without a
conditional text, extracted from a passive section with isImportant false,
still gets isConditional true, because the passive-section disjunct alone
triggers the marker. -/
theorem c2_counterexample :
    extractStats props2 (some [sec2]) none = [statC2] ∧ statC2.isConditional = some true :=
  ⟨rfl, rfl⟩

/-- Claim C2 as amended: for a property carrying the ConditionallyApplied
flag and no conditional text, extraction from a passive section marks the
stat conditional even when isImportant is false. -/
theorem c2_theorem (pn : String) (p : RawItemProperty) (um : String → Option String)
    (s : StatInfo) (h1 : "ConditionallyApplied" ∈ p.usage_flags.getD [])
    (h2 : p.conditional.getD "" = "")
    (h : extractStat pn (some p) StatSection.passive um false false = some s) :
    s.isConditional = some true := by
  rw [(extractStat_inv h).2,
    if_pos ((shouldMark_iff p StatSection.passive false false).mpr
      (Or.inr ⟨h1, h2, Or.inr rfl⟩))]

/-- Claim C2 witness: the amended statement at the concrete slow property. -/
theorem c2_witness :
    "ConditionallyApplied" ∈ prop2.usage_flags.getD [] ∧ prop2.conditional.getD "" = "" ∧
    statC2.isConditional = some true :=
  ⟨by decide, rfl, c2_theorem "SlowPct" prop2 (fun _ => none) statC2 (by decide) rfl rfl⟩

/-- Claim C1: whenever extractStat produces a StatInfo, its isConditional
flag is set exactly when the isConditional argument is true, or the property
carries the ConditionallyApplied flag, has no nonempty conditional text, and
is either an important slow debuff or sits in a passive section. -/
theorem c1_theorem (pn : String) (p : RawItemProperty) (st : StatSection)
    (um : String → Option String) (c i : Bool) (s : StatInfo)
    (h : extractStat pn (some p) st um c i = some s) :
    s.isConditional =
      (if c = true ∨ ("ConditionallyApplied" ∈ p.usage_flags.getD [] ∧
          p.conditional.getD "" = "" ∧
          ((i = true ∧ p.css_class = some "slow") ∨ st = StatSection.passive))
        then some true else none) := by
  rw [(extractStat_inv h).2]
  by_cases hP : c = true ∨ ("ConditionallyApplied" ∈ p.usage_flags.getD [] ∧
      p.conditional.getD "" = "" ∧
      ((i = true ∧ p.css_class = some "slow") ∨ st = StatSection.passive))
  · rw [if_pos ((shouldMark_iff p st c i).mpr hP), if_pos hP]
  · rw [if_neg (fun hb => hP ((shouldMark_iff p st c i).mp hb)), if_neg hP]

/-- Claim C1 witness: the statement at a concrete important slow debuff in an
active section. -/
theorem c1_witness :
    extractStat "P" (some pW) StatSection.active (fun _ => none) false true = some statW ∧
    statW.isConditional =
      (if False = True ∨ ("ConditionallyApplied" ∈ pW.usage_flags.getD [] ∧
          pW.conditional.getD "" = "" ∧
          ((True = True ∧ pW.css_class = some "slow") ∨ StatSection.active = StatSection.passive))
        then some true else none) :=
  ⟨rfl, c1_theorem "P" pW StatSection.active (fun _ => none) false true statW rfl⟩

lemma optTruthy_true_iff (o : Option String) : optTruthy o = true ↔ ∃ b, o = some b ∧ b ≠ "" := by
  rcases o with _ | b <;> simp [optTruthy]

lemma jsvZeroEmpty_false_iff (v : Option JSVal) :
    jsvZeroEmpty v = false ↔ (v ≠ none ∧ v ≠ some (JSVal.vstr "") ∧ v ≠ some (JSVal.vstr "0")
      ∧ v ≠ some (JSVal.vnum 0)) := by
  rcases v with _ | (s | n) <;> simp [jsvZeroEmpty]
  tauto


lemma extractStat_none_iff (pn : String) (p : RawItemProperty) (st : StatSection)
    (um : String → Option String) (c i : Bool) :
    (extractStat pn (some p) st um c i).isSome = true ↔
      (jsvZeroEmpty (if jsvZeroEmpty p.value && optTruthy (um pn)
        then Option.map JSVal.vstr (um pn) else p.value) = false ∧ optTruthy p.label = true) := by
  simp only [extractStat]
  by_cases hsub : (jsvZeroEmpty p.value && optTruthy (um pn)) = true
  · simp only [hsub, if_true]
    by_cases hz : jsvZeroEmpty (Option.map JSVal.vstr (um pn)) = true
    · simp [hz]
    · simp only [Bool.not_eq_true] at hz
      simp [hz]
  · simp only [Bool.not_eq_true] at hsub
    simp only [hsub, if_false]
    by_cases hz : jsvZeroEmpty p.value = true
    · simp [hz]
    · simp only [Bool.not_eq_true] at hz
      simp [hz]

/-- Claim C4: extractStat succeeds exactly when the property exists with a
nonempty label and a resolved value (own value, with the upgrade-map entry
substituted only for a zero-or-empty own value) that is nonzero and
nonempty; a good base value makes the upgrade map irrelevant; and every stat
the aggregator emits comes from extractStat. -/
theorem c4_theorem :
    (∀ (pn : String) (prop : Option RawItemProperty) (st : StatSection)
        (um : String → Option String) (c i : Bool),
      (extractStat pn prop st um c i).isSome = true ↔
        ∃ p, prop = some p ∧ p.label.getD "" ≠ "" ∧
          ((p.value ≠ none ∧ p.value ≠ some (JSVal.vstr "") ∧ p.value ≠ some (JSVal.vstr "0")
              ∧ p.value ≠ some (JSVal.vnum 0)) ∨
            (∃ b, um pn = some b ∧ b ≠ "" ∧ b ≠ "0"))) ∧
    (∀ (pn : String) (p : RawItemProperty) (st : StatSection)
        (um : String → Option String) (c i : Bool),
      (p.value ≠ none ∧ p.value ≠ some (JSVal.vstr "") ∧ p.value ≠ some (JSVal.vstr "0")
          ∧ p.value ≠ some (JSVal.vnum 0)) →
      extractStat pn (some p) st um c i = extractStat pn (some p) st (fun _ => none) c i) ∧
    (∀ (properties : String → Option RawItemProperty)
        (ts : Option (List RawTooltipSection)) (ups : Option (List Upgrade)) (s : StatInfo),
      s ∈ extractStats properties ts ups →
      ∃ pn st c i,
        extractStat pn (properties pn) st (buildUpgradesMap (ups.getD [])) c i = some s) := by
  refine ⟨?p1, ?p2, ?p3⟩
  case p1 =>
    intro pn prop st um c i
    rcases prop with _ | p
    · simp [extractStat]
    · rw [extractStat_none_iff]
      constructor
      · rintro ⟨hz, hl⟩
        refine ⟨p, rfl, by simpa [optTruthy] using hl, ?_⟩
        by_cases hsub : (jsvZeroEmpty p.value && optTruthy (um pn)) = true
        · right
          obtain ⟨hsub1, hsub2⟩ := (Bool.and_eq_true _ _).mp hsub
          obtain ⟨b, hb, hbne⟩ := (optTruthy_true_iff (um pn)).mp hsub2
          rw [if_pos hsub, hb] at hz
          simp [jsvZeroEmpty] at hz
          exact ⟨b, hb, hz.2, hz.1⟩
        · left
          simp only [Bool.not_eq_true] at hsub
          rw [if_neg (by simp [hsub])] at hz
          exact (jsvZeroEmpty_false_iff _).mp hz
      · rintro ⟨p', hp', hl, hv⟩
        cases hp'
        refine ⟨?_, by simpa [optTruthy] using hl⟩
        rcases hv with hgood | ⟨b, hb, hbne, hbne0⟩
        · have hz : jsvZeroEmpty p.value = false := (jsvZeroEmpty_false_iff _).mpr hgood
          rw [if_neg (by simp [hz]), hz]
        · have ht : optTruthy (um pn) = true := (optTruthy_true_iff _).mpr ⟨b, hb, hbne⟩
          by_cases hz : jsvZeroEmpty p.value = true
          · have hc : (jsvZeroEmpty p.value && optTruthy (um pn)) = true := by
              rw [hz, ht]; rfl
            rw [if_pos hc, hb]
            simp [jsvZeroEmpty, hbne, hbne0]
          · simp only [Bool.not_eq_true] at hz
            rw [if_neg (by simp [hz]), hz]
  case p2 =>
    intro pn p st um c i hgood
    have hz : jsvZeroEmpty p.value = false := (jsvZeroEmpty_false_iff _).mpr hgood
    simp [extractStat, hz]
  case p3 =>
    intro props ts ups s hs
    simp only [extractStats, List.mem_flatMap] at hs
    obtain ⟨sec, hsec, attr, hattr, hs⟩ := hs
    simp only [attrStatsOf, List.mem_append, List.mem_filterMap] at hs
    rcases hs with (⟨pn, hpn, he⟩ | ⟨pn, hpn, he⟩) | ⟨pn, hpn, he⟩ <;>
      exact ⟨pn, _, _, _, he⟩

/-- Claim C4 witness: the spec example, a zero-string base value whose
upgrade-map entry 5 makes extraction succeed. -/
theorem c4_witness :
    (extractStat "Foo" (some pZ) StatSection.passive um5 false false).isSome = true :=
  (c4_theorem.1 "Foo" (some pZ) StatSection.passive um5 false false).mpr
    ⟨pZ, rfl, by decide, Or.inr ⟨"5", rfl, by decide, by decide⟩⟩

lemma attrBlocksStep_eq (props : String → Option RawItemProperty)
    (um : String → Option String) (st : StatSection) (c : Bool)
    (blocks : List ContentBlock) (attr : SectionAttribute) :
    attrBlocksStep props um st c blocks attr = blocks ++ attrBlocksSpec props um st c attr := by
  simp only [attrBlocksStep, attrBlocksSpec]
  by_cases hl : optTruthy attr.loc_string = true <;>
    by_cases hs : (attrStatsOf props st um c attr).length > 0 <;>
      simp [hl, hs, List.append_assoc]

lemma foldl_attrBlocksStep (props : String → Option RawItemProperty)
    (um : String → Option String) (st : StatSection) (c : Bool)
    (attrs : List SectionAttribute) (blocks : List ContentBlock) :
    attrs.foldl (attrBlocksStep props um st c) blocks
      = blocks ++ attrs.flatMap (attrBlocksSpec props um st c) := by
  induction attrs generalizing blocks with
  | nil => simp
  | cons a l ih => simp [attrBlocksStep_eq, ih, List.append_assoc]

lemma sectionStep_eq (props : String → Option RawItemProperty)
    (um : String → Option String) (acc : List ContentBlock × List ContentBlock)
    (sec : RawTooltipSection) :
    sectionStep props um acc sec
      = (acc.1 ++ (sectionBlocksSpec props um sec).1,
         acc.2 ++ (sectionBlocksSpec props um sec).2) := by
  simp only [sectionStep, sectionBlocksSpec]
  by_cases h1 : sec.section_type = "active"
  · simp [h1, foldl_attrBlocksStep]
  · by_cases h2 : sec.section_type = "passive" ∨ sec.section_type = "conditional"
        ∨ sec.section_type = ""
    · rcases h2 with h | h | h <;> simp [h1, h, foldl_attrBlocksStep]
    · by_cases h3 : sec.section_type = "innate"
      · simp [h1, h2, h3]
      · simp [h1, h2, h3, foldl_attrBlocksStep]

lemma foldl_sectionStep (props : String → Option RawItemProperty)
    (um : String → Option String) (secs : List RawTooltipSection)
    (acc : List ContentBlock × List ContentBlock) :
    secs.foldl (sectionStep props um) acc
      = (acc.1 ++ secs.flatMap (fun sec => (sectionBlocksSpec props um sec).1),
         acc.2 ++ secs.flatMap (fun sec => (sectionBlocksSpec props um sec).2)) := by
  induction secs generalizing acc with
  | nil => simp
  | cons sec l ih => simp [sectionStep_eq, ih, List.append_assoc]

lemma extractContentBlocks_eq (props : String → Option RawItemProperty)
    (ts : Option (List RawTooltipSection)) (ups : Option (List Upgrade)) :
    extractContentBlocks props ts ups
      = ((ts.getD []).flatMap (fun sec =>
          (sectionBlocksSpec props (buildUpgradesMap (ups.getD [])) sec).1),
         (ts.getD []).flatMap (fun sec =>
          (sectionBlocksSpec props (buildUpgradesMap (ups.getD [])) sec).2)) := by
  simp [extractContentBlocks, foldl_sectionStep]

/-- Claim C5: extractContentBlocks walks each section's attributes in
declaration order, per attribute a description block (for a present
loc_string) precedes its single stats block (emitted only when stats were
extracted), and the claimed example yields exactly
description X, stats, description Y. -/
theorem c5_theorem :
    (∀ (props : String → Option RawItemProperty)
        (ts : Option (List RawTooltipSection)) (ups : Option (List Upgrade)),
      extractContentBlocks props ts ups
        = ((ts.getD []).flatMap (fun sec =>
            (sectionBlocksSpec props (buildUpgradesMap (ups.getD [])) sec).1),
           (ts.getD []).flatMap (fun sec =>
            (sectionBlocksSpec props (buildUpgradesMap (ups.getD [])) sec).2))) ∧
    extractContentBlocks exProps (some exTs) none
      = ([], [ContentBlock.description "X", ContentBlock.stats [statEx],
              ContentBlock.description "Y"]) := by
  constructor
  · intro props ts ups
    exact extractContentBlocks_eq props ts ups
  · rfl

lemma extractStat_sectionTag {pn : String} {prop : Option RawItemProperty} {st : StatSection}
    {um : String → Option String} {c i : Bool} {s : StatInfo}
    (h : extractStat pn prop st um c i = some s) : s.sectionTag = st := by
  rcases prop with _ | p
  · simp [extractStat] at h
  · exact (extractStat_inv h).1

lemma attrStatsOf_tag {props : String → Option RawItemProperty} {st : StatSection}
    {um : String → Option String} {c : Bool} {attr : SectionAttribute} {s : StatInfo}
    (hs : s ∈ attrStatsOf props st um c attr) : s.sectionTag = st := by
  simp only [attrStatsOf, List.mem_append, List.mem_filterMap] at hs
  rcases hs with (⟨pn, hpn, he⟩ | ⟨pn, hpn, he⟩) | ⟨pn, hpn, he⟩ <;>
    exact extractStat_sectionTag he

lemma attrBlocksSpec_mem {props : String → Option RawItemProperty}
    {um : String → Option String} {st : StatSection} {c : Bool}
    {attr : SectionAttribute} {b : ContentBlock}
    (hb : b ∈ attrBlocksSpec props um st c attr) :
    (∃ t, b = ContentBlock.description t)
      ∨ b = ContentBlock.stats (attrStatsOf props st um c attr) := by
  simp only [attrBlocksSpec, List.mem_append] at hb
  rcases hb with hb | hb
  · by_cases hl : optTruthy attr.loc_string = true
    · rw [if_pos hl] at hb
      simp only [List.mem_singleton] at hb
      exact Or.inl ⟨_, hb⟩
    · rw [if_neg hl] at hb
      simp at hb
  · by_cases hs : (attrStatsOf props st um c attr).length > 0
    · rw [if_pos hs] at hb
      simp only [List.mem_singleton] at hb
      exact Or.inr hb
    · rw [if_neg hs] at hb
      simp at hb

lemma statsSectionTag_unrec {t : String} (h1 : t ≠ "active") (h2 : t ≠ "passive")
    (h3 : t ≠ "conditional") (h5 : t ≠ "") : statsSectionTag t = StatSection.innate := by
  simp [statsSectionTag, h1, h2, h3, h5]

/-- Claim C7 as amended: for a section whose type is a nonempty string other
than active, passive, conditional or innate, the content-block extractor
routes everything to the passive bucket with passive stat tags, but the
stats aggregator tags the extracted stats innate, not passive. -/
theorem c7_theorem (props : String → Option RawItemProperty) (ups : Option (List Upgrade))
    (sec : RawTooltipSection)
    (h1 : sec.section_type ≠ "active") (h2 : sec.section_type ≠ "passive")
    (h3 : sec.section_type ≠ "conditional") (h4 : sec.section_type ≠ "innate")
    (h5 : sec.section_type ≠ "") :
    (∀ s ∈ extractStats props (some [sec]) ups, s.sectionTag = StatSection.innate) ∧
    (extractContentBlocks props (some [sec]) ups).1 = [] ∧
    (∀ b ∈ (extractContentBlocks props (some [sec]) ups).2, ∀ sts,
      b = ContentBlock.stats sts → ∀ s ∈ sts, s.sectionTag = StatSection.passive) := by
  refine ⟨?p1, ?p2, ?p3⟩
  case p1 =>
    intro s hs
    simp only [extractStats, Option.getD_some, List.flatMap_singleton, List.mem_flatMap] at hs
    obtain ⟨attr, hattr, hs⟩ := hs
    rw [statsSectionTag_unrec h1 h2 h3 h5] at hs
    exact attrStatsOf_tag hs
  case p2 =>
    rw [extractContentBlocks_eq]
    simp [sectionBlocksSpec, h1, h2, h3, h4, h5]
  case p3 =>
    intro b hb sts hbs s hs
    rw [extractContentBlocks_eq] at hb
    simp only [Option.getD_some, List.flatMap_singleton] at hb
    have hsec2 : (sectionBlocksSpec props (buildUpgradesMap (ups.getD [])) sec).2
        = (sec.section_attributes.getD []).flatMap
            (attrBlocksSpec props (buildUpgradesMap (ups.getD [])) StatSection.passive
              (sec.section_type == "conditional")) := by
      simp [sectionBlocksSpec, h1, h2, h3, h4, h5]
    rw [hsec2] at hb
    simp only [List.mem_flatMap] at hb
    obtain ⟨attr, hattr, hb⟩ := hb
    rcases attrBlocksSpec_mem hb with ⟨t, ht⟩ | hst
    · rw [ht] at hbs
      cases hbs
    · rw [hst] at hbs
      cases hbs
      exact attrStatsOf_tag hs

/-- Claim C7 counterexample: with an unrecognized section type the stats
aggregator tags the extracted stat innate, not passive as claimed. -/
theorem c7_counterexample :
    (extractStats props2 (some [secFoo]) none).map (fun s => s.sectionTag)
      = [StatSection.innate] ∧ StatSection.innate ≠ StatSection.passive :=
  ⟨rfl, by decide⟩

/-- Claim C7 witness: the amended statement at a concrete foo-typed section. -/
theorem c7_witness :
    (∀ s ∈ extractStats props2 (some [secFoo]) none, s.sectionTag = StatSection.innate) ∧
    (extractContentBlocks props2 (some [secFoo]) none).1 = [] ∧
    (∀ b ∈ (extractContentBlocks props2 (some [secFoo]) none).2, ∀ sts,
      b = ContentBlock.stats sts → ∀ s ∈ sts, s.sectionTag = StatSection.passive) :=
  c7_theorem props2 none secFoo (by decide) (by decide) (by decide) (by decide) (by decide)

/-- Claim C6 counterexample: an item whose only content is an empty
passive-typed tooltip section gets hasPassiveSection true, while the claimed
formula (restricted to innate-typed sections) is false, because the code
also counts passive- and conditional-typed sections. -/
theorem c6_counterexample :
    (processItem [] itemP).hasPassiveSection = true ∧ claimHasPassive itemP = false :=
  ⟨rfl, rfl⟩

/-- Claim C6 as amended: hasPassiveSection is true exactly when the item has
a tooltip section typed innate, passive or conditional, or a nonempty
passive description, or passive-tagged stats together with an active section
or a nonempty active description. -/
theorem c6_theorem (allItems : List RawItem) (item : RawItem) :
    (processItem allItems item).hasPassiveSection = true ↔
      ((∃ s ∈ item.tooltip_sections.getD [], s.section_type = "innate"
          ∨ s.section_type = "passive" ∨ s.section_type = "conditional") ∨
        (extractDescriptions item).passiveDescription ≠ "" ∨
        (passiveStatsOf item ≠ [] ∧
          ((∃ s ∈ item.tooltip_sections.getD [], s.section_type = "active") ∨
            (extractDescriptions item).activeDescription ≠ ""))) := by
  have hp : (processItem allItems item).hasPassiveSection = hasPassiveSectionOf item := rfl
  rw [hp]
  simp [hasPassiveSectionOf, hasInnateSection, hasActiveSectionB, List.any_eq_true,
    List.length_pos, or_assoc]

/-- Claim C3 counterexample: an item whose only description text is the
english field resolves the whole claimed chain (ending in the localized
passive fallback) to empty, yet the reconciled passive description is that
english text, supplied by the final safety net the claim omits. -/
theorem c3_counterexample :
    passiveDescChain itemE = "" ∧ locPassiveDescOf itemE = "" ∧
    (extractDescriptions itemE).passiveDescription = "foo" := ⟨rfl, rfl, rfl⟩

/-- Claim C3 as amended: the passive description is the claimed five-step
chain, except that when both chains resolve empty a final safety net routes
the first available description text (main, dedicated passive, dedicated
active, localized passive, localized active, english, tooltip) to the
passive side of non-active-capable items; the rich-passive-field particular
case holds as claimed. -/
theorem c3_theorem (item : RawItem) :
    ((extractDescriptions item).passiveDescription =
      (if passiveDescChain item ≠ "" then passiveDescChain item
       else if activeDescChain item = "" ∧ hasActiveAbilityOf item = false
         then anyDescOf item else "")) ∧
    (∀ pd, (item.description.getD {}).passive_desc = some pd →
      strIncludes (jsToLower pd) "<img" = true → mainDescOf item ≠ "" →
      (extractDescriptions item).passiveDescription = pd) := by
  constructor
  · by_cases h1 : passiveDescChain item = "" <;>
      by_cases h2 : activeDescChain item = "" <;>
        by_cases h3 : hasActiveAbilityOf item = true <;>
          by_cases h4 : anyDescOf item = "" <;>
            simp_all [extractDescriptions]
  · intro pd hpd hrich hmain
    have hpdne : pd ≠ "" := by
      intro he
      rw [he] at hrich
      exact absurd hrich (by decide)
    have hded : passiveDescOf item = pd := by
      simp [passiveDescOf, hpd, jsOr, hpdne]
    have hrichpd : isRichDesc pd = true := by
      simp [isRichDesc, hrich]
    have hchain : passiveDescChain item = pd := by
      simp [passiveDescChain, hded, hrichpd]
    simp [extractDescriptions, hchain, hpdne]

/-- Claim C3 witness: the particular case at a concrete item with a rich
dedicated passive description and a nonempty main description. -/
theorem c3_witness : (extractDescriptions itemR).passiveDescription = "<img x>" :=
  (c3_theorem itemR).2 "<img x>" rfl (by decide) (by decide)

lemma listModify_map_id (l : List ProcessedItem) (j : Nat)
    (f : ProcessedItem → ProcessedItem) (hf : ∀ p, (f p).id = p.id) :
    (listModify l j f).map (fun p => p.id) = l.map (fun p => p.id) := by
  induction l generalizing j with
  | nil => rfl
  | cons a l ih =>
    cases j with
    | zero => simp [listModify, hf]
    | succ n => simp [listModify, ih]

lemma findLastIdx_congr {l₁ l₂ : List ProcessedItem}
    (h : l₁.map (fun p => p.id) = l₂.map (fun p => p.id)) (cid : Int) :
    findLastIdx l₁ cid = findLastIdx l₂ cid := by
  induction l₁ generalizing l₂ with
  | nil =>
    cases l₂ with
    | nil => rfl
    | cons b m => simp at h
  | cons a l ih =>
    cases l₂ with
    | nil => simp at h
    | cons b m =>
      simp only [List.map_cons, List.cons.injEq] at h
      simp only [findLastIdx, ih h.2, h.1]

lemma listModify_getElem? (l : List α) (k : Nat) (f : α → α) (j : Nat) :
    (listModify l k f)[j]? = if j = k then (l[j]?.map f) else l[j]? := by
  induction l generalizing k j with
  | nil => simp [listModify]
  | cons a l ih =>
    cases k with
    | zero =>
      cases j with
      | zero => simp [listModify]
      | succ n => simp [listModify]
    | succ m =>
      cases j with
      | zero => simp [listModify]
      | succ n => simp [listModify, ih]

lemma applyOp_map_id (acc : List ProcessedItem) (op : Int × ComponentItem) :
    (applyOp acc op).map (fun p => p.id) = acc.map (fun p => p.id) := by
  simp only [applyOp]
  split
  · exact listModify_map_id _ _ _ (fun p => rfl)
  · rfl

lemma foldl_applyOp_getElem? (base : List ProcessedItem)
    (ops : List (Int × ComponentItem)) :
    ∀ acc : List ProcessedItem, acc.map (fun p => p.id) = base.map (fun p => p.id) →
    ∀ j : Nat, (ops.foldl applyOp acc)[j]?
      = (acc[j]?).map (fun p =>
          { p with upgradesTo := p.upgradesTo ++ opsFor base j ops }) := by
  induction ops with
  | nil =>
    intro acc hids j
    simp only [List.foldl_nil, opsFor, List.filterMap_nil]
    cases h : acc[j]? <;> simp
  | cons op ops ih =>
    intro acc hids j
    rw [List.foldl_cons]
    have hids' : (applyOp acc op).map (fun p => p.id) = base.map (fun p => p.id) := by
      rw [applyOp_map_id]
      exact hids
    rw [ih (applyOp acc op) hids' j]
    have hfl : findLastIdx acc op.1 = findLastIdx base op.1 := findLastIdx_congr hids op.1
    cases hca : findLastIdx base op.1 with
    | none =>
      have hacc : findLastIdx acc op.1 = none := by rw [hfl, hca]
      rw [show applyOp acc op = acc from by simp [applyOp, hacc]]
      simp [opsFor, List.filterMap_cons, hca]
    | some k =>
      have hacc : findLastIdx acc op.1 = some k := by rw [hfl, hca]
      rw [show applyOp acc op
          = listModify acc k (fun p => { p with upgradesTo := p.upgradesTo ++ [op.2] }) from by
        simp [applyOp, hacc]]
      rw [listModify_getElem?]
      by_cases hj : j = k
      · subst hj
        cases h : acc[j]? <;>
          simp [h, opsFor, List.filterMap_cons, hca]
      · have hne : ¬((some k : Option Nat) = some j) := by
          simp only [Option.some.injEq]
          intro hkj
          exact hj hkj.symm
        cases h : acc[j]? <;>
          simp [h, hj, opsFor, List.filterMap_cons, hca, hne]

lemma secondPass_getElem? (processed : List ProcessedItem) (j : Nat) :
    (secondPass processed)[j]?
      = (processed[j]?).map (fun p =>
          { p with upgradesTo := p.upgradesTo ++ opsFor processed j (upgradeOps processed) }) :=
  foldl_applyOp_getElem? processed (upgradeOps processed) processed rfl j

lemma findLastIdx_some {l : List ProcessedItem} {cid : Int} {j : Nat}
    (h : findLastIdx l cid = some j) : ∃ p, l[j]? = some p ∧ p.id = cid := by
  induction l generalizing j with
  | nil => simp [findLastIdx] at h
  | cons a l ih =>
    simp only [findLastIdx] at h
    cases hfl : findLastIdx l cid with
    | some k =>
      rw [hfl] at h
      injection h with h
      subst h
      obtain ⟨p, hp, hpid⟩ := ih hfl
      exact ⟨p, by simpa using hp, hpid⟩
    | none =>
      rw [hfl] at h
      by_cases ha : a.id = cid
      · rw [if_pos ha] at h
        injection h with h
        subst h
        exact ⟨a, by simp, ha⟩
      · rw [if_neg ha] at h
        cases h

lemma findLastIdx_isSome {l : List ProcessedItem} {p : ProcessedItem} {cid : Int}
    (hp : p ∈ l) (hid : p.id = cid) : ∃ j, findLastIdx l cid = some j := by
  induction l with
  | nil => cases hp
  | cons a l ih =>
    simp only [findLastIdx]
    cases hfl : findLastIdx l cid with
    | some k => exact ⟨k + 1, rfl⟩
    | none =>
      rcases List.mem_cons.mp hp with rfl | hp2
      · exact ⟨0, by rw [if_pos hid]⟩
      · obtain ⟨j, hj⟩ := ih hp2
        rw [hfl] at hj
        cases hj

lemma findLastIdx_unique_get {l : List ProcessedItem} {p : ProcessedItem} {cid : Int}
    (hp : p ∈ l) (hid : p.id = cid) (huniq : ∀ q ∈ l, q.id = cid → q = p) :
    ∃ j, findLastIdx l cid = some j ∧ l[j]? = some p := by
  obtain ⟨j, hj⟩ := findLastIdx_isSome hp hid
  obtain ⟨q, hq, hqid⟩ := findLastIdx_some hj
  exact ⟨j, hj, by rw [hq, huniq q (List.getElem?_mem hq) hqid]⟩

lemma findLastByClass_eq_none {allItems : List RawItem} {cn : String}
    (hnone : ∀ r ∈ allItems, r.class_name ≠ cn) : findLastByClass allItems cn = none := by
  induction allItems with
  | nil => rfl
  | cons r l ih =>
    simp only [findLastByClass]
    rw [ih (fun q hq => hnone q (List.mem_cons_of_mem _ hq))]
    rw [if_neg (hnone r (List.mem_cons_self _ _))]

lemma secondPass_entry {processed : List ProcessedItem}
    (hinit : ∀ p ∈ processed, p.upgradesTo = [])
    {p : ProcessedItem} (hp : p ∈ secondPass processed) {e : ComponentItem}
    (he : e ∈ p.upgradesTo) :
    ∃ a ∈ processed, ∃ c ∈ a.componentItems, c.id = p.id ∧
      (∃ q ∈ processed, q.id = c.id) ∧ e = ComponentItem.mk a.id a.displayName := by
  obtain ⟨j, hj⟩ := List.mem_iff_getElem?.mp hp
  rw [secondPass_getElem? processed j] at hj
  cases hpj : processed[j]? with
  | none => rw [hpj] at hj; cases hj
  | some p0 =>
    rw [hpj] at hj
    injection hj with hj
    subst hj
    simp only [] at he ⊢
    have hp0 : p0 ∈ processed := List.getElem?_mem hpj
    rw [hinit p0 hp0] at he
    simp only [List.nil_append] at he
    simp only [opsFor, List.mem_filterMap] at he
    obtain ⟨op, hop, hife⟩ := he
    by_cases hcond : findLastIdx processed op.1 = some j
    · rw [if_pos hcond] at hife
      injection hife with hife
      obtain ⟨q, hq, hqid⟩ := findLastIdx_some hcond
      rw [hpj] at hq
      injection hq with hq
      subst hq
      simp only [upgradeOps, List.mem_flatMap, List.mem_map] at hop
      obtain ⟨a, ha, c, hc, hopc⟩ := hop
      refine ⟨a, ha, c, hc, ?_, ⟨p0, hp0, ?_⟩, ?_⟩
      · show c.id = p0.id
        rw [hqid, ← hopc]
      · show p0.id = c.id
        rw [hqid, ← hopc]
      · rw [← hife, ← hopc]
    · rw [if_neg hcond] at hife
      cases hife

/-- Claim C9: a component reference that resolves to no item still yields a
placeholder entry with id 0 and the normalized reference name, and when no
processed item has id 0 pass 2 appends entries only for references whose id
matches a processed item and is nonzero, so never for such a placeholder. -/
theorem c9_theorem (allItems : List RawItem) (item : RawItem) (cn : String)
    (hnone : ∀ r ∈ allItems, r.class_name ≠ cn)
    (hmem : cn ∈ item.component_items.getD []) :
    ComponentItem.mk 0 (formatName cn) ∈ componentItemsOf allItems item ∧
    (∀ processed : List ProcessedItem,
      (∀ p ∈ processed, p.id ≠ 0 ∧ p.upgradesTo = []) →
      ∀ p ∈ secondPass processed, ∀ e ∈ p.upgradesTo,
        ∃ a ∈ processed, ∃ c ∈ a.componentItems,
          c.id = p.id ∧ c.id ≠ 0 ∧ e = ComponentItem.mk a.id a.displayName) := by
  constructor
  · have hfc : findLastByClass allItems cn = none := findLastByClass_eq_none hnone
    simp only [componentItemsOf, List.mem_map]
    exact ⟨cn, hmem, by rw [hfc]⟩
  · intro processed hinit p hp e he
    obtain ⟨a, ha, c, hc, hcp, ⟨q, hq, hqc⟩, hee⟩ :=
      secondPass_entry (fun p hp => (hinit p hp).2) hp he
    exact ⟨a, ha, c, hc, hcp, by rw [← hqc]; exact (hinit q hq).1, hee⟩

/-- Claim C8 as amended: if shop items A and B have distinct ids, A's
components reference B's class name, the class-name lookup over the full
list resolves that name to B, and every shop item sharing B's id processes
to B's record, then after pass 2 B's record carries an upgradesTo entry with
A's id and display name; and every upgradesTo entry anywhere stems from a
component reference of a processed shop item whose id matches the annotated
record. -/
theorem c8_theorem (allItems : List RawItem) (A B : RawItem)
    (hA : A ∈ allItems.filter shopEligible) (hB : B ∈ allItems.filter shopEligible)
    (_hAB : A.id ≠ B.id)
    (hcomp : B.class_name ∈ A.component_items.getD [])
    (hclass : findLastByClass allItems B.class_name = some B)
    (hidU : ∀ C ∈ allItems.filter shopEligible, C.id = B.id →
      processItem allItems C = processItem allItems B) :
    (∃ p ∈ loadItemsModel allItems, p.id = B.id ∧ p.name = B.class_name ∧
      ComponentItem.mk A.id (processItem allItems A).displayName ∈ p.upgradesTo) ∧
    (∀ p ∈ loadItemsModel allItems, ∀ e ∈ p.upgradesTo,
      ∃ a ∈ allItems.filter shopEligible,
        ∃ c ∈ (processItem allItems a).componentItems,
          c.id = p.id ∧ e = ComponentItem.mk (processItem allItems a).id
            (processItem allItems a).displayName) := by
  constructor
  · have hpB : processItem allItems B
        ∈ (allItems.filter shopEligible).map (processItem allItems) :=
      List.mem_map_of_mem _ hB
    have huniq : ∀ q ∈ (allItems.filter shopEligible).map (processItem allItems),
        q.id = B.id → q = processItem allItems B := by
      intro q hq hqid
      obtain ⟨C, hC, rfl⟩ := List.mem_map.mp hq
      exact hidU C hC hqid
    obtain ⟨j, hj, hget⟩ := findLastIdx_unique_get hpB
      (show (processItem allItems B).id = B.id from rfl) huniq
    have hcompB : ComponentItem.mk B.id (jsOr (B.name.getD "") (formatName B.class_name))
        ∈ (processItem allItems A).componentItems := by
      show _ ∈ componentItemsOf allItems A
      simp only [componentItemsOf, List.mem_map]
      exact ⟨B.class_name, hcomp, by rw [hclass]⟩
    have hop : ((B.id : Int),
        ComponentItem.mk (processItem allItems A).id (processItem allItems A).displayName)
        ∈ upgradeOps ((allItems.filter shopEligible).map (processItem allItems)) := by
      simp only [upgradeOps, List.mem_flatMap]
      exact ⟨processItem allItems A, List.mem_map_of_mem _ hA, List.mem_map_of_mem _ hcompB⟩
    have hentry : ComponentItem.mk (processItem allItems A).id
          (processItem allItems A).displayName
        ∈ opsFor ((allItems.filter shopEligible).map (processItem allItems)) j
          (upgradeOps ((allItems.filter shopEligible).map (processItem allItems))) := by
      simp only [opsFor, List.mem_filterMap]
      exact ⟨_, hop, by simp [hj]⟩
    have hsp := secondPass_getElem?
      ((allItems.filter shopEligible).map (processItem allItems)) j
    rw [hget] at hsp
    refine ⟨_, List.mem_iff_getElem?.mpr ⟨j, hsp⟩, rfl, rfl,
      List.mem_append.mpr (Or.inr ?_)⟩
    exact hentry
  · intro p hp e he
    have hinit : ∀ q ∈ (allItems.filter shopEligible).map (processItem allItems),
        q.upgradesTo = [] := by
      intro q hq
      obtain ⟨C, hC, rfl⟩ := List.mem_map.mp hq
      rfl
    obtain ⟨a, ha, c, hc, hcp, hres, hee⟩ := secondPass_entry hinit hp he
    obtain ⟨C, hC, rfl⟩ := List.mem_map.mp ha
    exact ⟨C, hC, c, hc, hcp, hee⟩

/-- Claim C8 counterexample: rawA and rawB are shop-eligible with distinct
ids and rawA is built from rawB's class name, but a later non-shop item with
the same class name shadows rawB in the class-name map, so after pass 2 no
record carries any upgradesTo entry. -/
theorem c8_counterexample :
    shopEligible rawA = true ∧ shopEligible rawB = true ∧ rawA.id ≠ rawB.id ∧
    rawB.class_name ∈ rawA.component_items.getD [] ∧
    (loadItemsModel allX).map (fun p => (p.name, p.upgradesTo))
      = [("b", []), ("a", [])] :=
  ⟨rfl, rfl, by decide, by decide, by decide⟩

/-- Claim C8 witness: the amended statement at a two-item shop dataset. -/
theorem c8_witness :
    (∃ p ∈ loadItemsModel allY, p.id = rawB.id ∧ p.name = rawB.class_name ∧
      ComponentItem.mk rawA.id (processItem allY rawA).displayName ∈ p.upgradesTo) ∧
    (∀ p ∈ loadItemsModel allY, ∀ e ∈ p.upgradesTo,
      ∃ a ∈ allY.filter shopEligible,
        ∃ c ∈ (processItem allY a).componentItems,
          c.id = p.id ∧ e = ComponentItem.mk (processItem allY a).id
            (processItem allY a).displayName) :=
  c8_theorem allY rawA rawB
    (by rw [show allY.filter shopEligible = [rawB, rawA] from rfl]
        exact List.mem_cons_of_mem _ (List.mem_cons_self _ _))
    (by rw [show allY.filter shopEligible = [rawB, rawA] from rfl]
        exact List.mem_cons_self _ _)
    (by decide) (by decide) rfl
    (by rw [show allY.filter shopEligible = [rawB, rawA] from rfl]
        intro C hC hCid
        rcases List.mem_cons.mp hC with rfl | hC2
        · rfl
        · rcases List.mem_cons.mp hC2 with rfl | hC3
          · exact absurd hCid (by decide)
          · cases hC3)

/-- Claim C9 witness: the statement at a reference to a class name absent
from the item list. -/
theorem c9_witness :
    ComponentItem.mk 0 (formatName "zzz") ∈ componentItemsOf [rawB] rawD ∧
    (∀ processed : List ProcessedItem,
      (∀ p ∈ processed, p.id ≠ 0 ∧ p.upgradesTo = []) →
      ∀ p ∈ secondPass processed, ∀ e ∈ p.upgradesTo,
        ∃ a ∈ processed, ∃ c ∈ a.componentItems,
          c.id = p.id ∧ c.id ≠ 0 ∧ e = ComponentItem.mk a.id a.displayName) :=
  c9_theorem [rawB] rawD "zzz" (by decide) (by decide)
